import Mathlib

/-!
Shallow embedding of `src/lib/Crawler.js` from the spidersuite repository.

The crawler orchestrates an external crawl engine (simplecrawler): it
overrides the engine's `discoverResources` hook, installs include/exclude
fetch conditions, wires engine events to error handlers, and reconciles
fragment references at completion.  External collaborators (cheerio's HTML
parser, the engine's default link discovery, lodash's shuffle, the
HtmlValidator, the HashProcessor and the pattern matcher of configUtil) are
modelled as parameters or, where a claim needs their behaviour and the spec
describes it, as definitions marked `Modelled from the spec`.

Effects on collaborators (hash processor registrations, title errors, the
delegation to the engine's original discovery) are recorded in an explicit
effect trace, so that claims about which collaborator calls happen, with
which arguments and in which order, become statements about that trace.
-/

/-- A parsed HTML element as produced by the document-parsing boundary
(cheerio): a tag name, an attribute list, and child elements.  Text
content is irrelevant to `Crawler.js` (it only selects by tag/attribute,
reads attributes, removes subtrees and re-serialises), so it is omitted. -/
inductive HtmlNode : Type where
  | elem (tag : String) (attrs : List (String × String)) (children : List HtmlNode) : HtmlNode

/-- The attribute values of `a` with name `key` (cheerio's `.attr` reads the
first one; the collector below walks all attribute entries). -/
def attrValues (key : String) (attrs : List (String × String)) : List String :=
  attrs.filterMap (fun p => if p.1 = key then some p.2 else none)

/-- First attribute value with the given name, as cheerio's `.attr(name)`. -/
def attrGet (key : String) (attrs : List (String × String)) : Option String :=
  (attrs.find? (fun p => p.1 = key)).map (fun p => p.2)

mutual
/-- Modelled from the spec: the HashProcessor's `findSupportedHashes`
"extract[s] every element with an `id` or `name` attribute" (the
HashProcessor source is not part of `src/`); this collects those
identifier attribute values from one element and its subtree. -/
def nodeDeclaredIds : HtmlNode → List String
  | .elem _ attrs children =>
      attrValues "id" attrs ++ attrValues "name" attrs ++ forestDeclaredIds children

/-- Declared ids of a forest of elements, in document order. -/
def forestDeclaredIds : List HtmlNode → List String
  | [] => []
  | n :: ns => nodeDeclaredIds n ++ forestDeclaredIds ns
end

/-- Is this one of the tags pruned by `$('pre,code,svg').remove()`? -/
def isPrunedTag (tag : String) : Bool :=
  tag = "pre" || tag = "code" || tag = "svg"

mutual
/-- Effect of `$('pre,code,svg').remove()` on one element: the element
vanishes (with its whole subtree) when its tag is `pre`, `code` or `svg`;
otherwise the removal recurses into its children. -/
def pruneNode : HtmlNode → Option HtmlNode
  | .elem tag attrs children =>
      if isPrunedTag tag then none
      else some (.elem tag attrs (pruneForest children))

/-- Effect of `$('pre,code,svg').remove()` on a forest of elements. -/
def pruneForest : List HtmlNode → List HtmlNode
  | [] => []
  | n :: ns =>
      match pruneNode n with
      | none => pruneForest ns
      | some m => m :: pruneForest ns
end

mutual
/-- The hrefs selected by `$('a[href]')` in document order: every `a`
element carrying an `href` attribute contributes its (first) value. -/
def nodeHrefs : HtmlNode → List String
  | .elem tag attrs children =>
      (if tag = "a" then
        match attrGet "href" attrs with
        | some h => [h]
        | none => []
      else []) ++ forestHrefs children

/-- Hrefs of `a[href]` elements across a forest, in document order. -/
def forestHrefs : List HtmlNode → List String
  | [] => []
  | n :: ns => nodeHrefs n ++ forestHrefs ns
end

/-- The parts of a simplecrawler queue item that `discoverResources`
reads: `queueItem.url`, `queueItem.host` and
`queueItem.stateData.contentType` (flattened here). -/
structure QueueItem where
  url : String
  host : String
  contentType : String
deriving DecidableEq, Repr

/-- The failure value returned by the HtmlValidator's
`getTitleValidationFailure`: the configured pattern and the page's
actual title text. -/
structure TitleValidationFailure where
  titlePattern : String
  titleText : String
deriving DecidableEq, Repr

/-- One call `discoverResources` makes on a collaborator, recorded in
order: `findSupportedHashes(queueItem.url, $)` on the hash processor,
`registerExpectedHash(href, queueItem)` on the hash processor,
`handleTitleError({url, msg})` on the error handler (via `checkTitle`),
and the delegation `this.oldDiscoverResources($.html(), queueItem)` to
the engine's saved original discovery. -/
inductive Effect : Type where
  | findSupportedHashes (url : String) (doc : List HtmlNode) : Effect
  | registerExpectedHash (href : String) (item : QueueItem) : Effect
  | handleTitleError (url : String) (msg : String) : Effect
  | oldDiscover (doc : List HtmlNode) (item : QueueItem) : Effect

/-- The surrounding state `discoverResources` closes over: the crawler's
host, `config.titlePattern` (absent when not configured), and the
external collaborators — the HtmlValidator's mismatch test, cheerio's
parser, the engine's original `discoverResources`, and lodash's
`_.shuffle`. -/
structure CrawlEnv where
  host : String
  titlePattern : Option String
  getTitleValidationFailure : List HtmlNode → Option TitleValidationFailure
  parse : String → List HtmlNode
  oldDiscoverResources : List HtmlNode → QueueItem → List String
  shuffle : List (Option String) → List (Option String)

/-- Does the (non-empty) token `pat` occur as a contiguous run anywhere
in the character list? -/
def containsToken (pat : List Char) : List Char → Bool
  | [] => false
  | c :: rest => pat.isPrefixOf (c :: rest) || containsToken pat rest

/-- The regex test `mailtoMatcher.test(url)` with
`mailtoMatcher = /mailto:/i`: does `mailto:` occur anywhere in the
string, case-insensitively (the subject is lowered; the pattern is
already lower case)? -/
def mailtoTest (s : String) : Bool :=
  containsToken "mailto:".data (s.data.map Char.toLower)

/-- Helper for lodash `_.uniq`: walk the list keeping each element the
first time it is seen, skipping elements already in `seen`. -/
def lodashUniqAux {α : Type} [DecidableEq α] (seen : List α) : List α → List α
  | [] => []
  | a :: as =>
      if a ∈ seen then lodashUniqAux seen as
      else a :: lodashUniqAux (a :: seen) as

/-- lodash `_.uniq`: keep the first occurrence of each element,
preserving order (SameValueZero equality; JS `null` entries compare
equal to each other). -/
def lodashUniq {α : Type} [DecidableEq α] (l : List α) : List α :=
  lodashUniqAux [] l

/-- The `checkTitle` helper of `Crawler.js`: ask the HtmlValidator for a
title validation failure and, if there is one, hand the error handler a
title error carrying the pattern and the failing title text in its
message. -/
def checkTitle (url : String) (getFailure : List HtmlNode → Option TitleValidationFailure)
    (doc : List HtmlNode) : List Effect :=
  match getFailure doc with
  | some f =>
      [Effect.handleTitleError url
        ("pattern: " ++ f.titlePattern ++ " failed on title: " ++ f.titleText)]
  | none => []

/-- The overridden `crawler.discoverResources(buf, queueItem)` installed by
`initDiscoverResources`.  Returns the resource list (a JS array whose
entries are strings or `null`, modelled as `Option String`) together with
the trace of collaborator calls it performed, in order:

* only documents whose content type starts with `text/html` are processed;
* the buffer is decoded and every literal `URL(s)` removed before parsing;
* `findSupportedHashes` runs on the full document, unconditionally;
* on the crawler's own host only: the title check (when a pattern is
  configured), pruning of `pre`/`code`/`svg` subtrees,
  `registerExpectedHash` for every remaining `a[href]`, delegation to the
  original discovery on the pruned document, mapping mailto-matching URLs
  to `null`, dedup with `_.uniq` and randomisation with `_.shuffle`;
* everything else returns the empty list. -/
def discoverResources (env : CrawlEnv) (buf : String) (queueItem : QueueItem) :
    List (Option String) × List Effect :=
  if "text/html".data.isPrefixOf queueItem.contentType.data then
    let strContent := (buf.replace "URL(s)" "")
    let doc := env.parse strContent
    if queueItem.host = env.host then
      let titleFx :=
        match env.titlePattern with
        | some _ => checkTitle queueItem.url env.getTitleValidationFailure doc
        | none => []
      let pruned := pruneForest doc
      let hrefFx := (forestHrefs pruned).map
        (fun h => Effect.registerExpectedHash h queueItem)
      let rawList := env.oldDiscoverResources pruned queueItem
      let mapped := rawList.map
        (fun u => if mailtoTest u then none else some u)
      (env.shuffle (lodashUniq mapped),
        Effect.findSupportedHashes queueItem.url doc ::
          (titleFx ++ hrefFx ++ [Effect.oldDiscover pruned queueItem]))
    else
      ([], [Effect.findSupportedHashes queueItem.url doc])
  else
    ([], [])

/-- The configuration fields of the spider config object that `Crawler.js`
reads in the parts embedded here (`rootUrl` is the value derived by
`setConfigRootUrl`; a JS-side absent pattern list is modelled as `[]`). -/
structure SpiderConfig where
  excludePatterns : List String
  includePatterns : List String
  rootUrl : String
  additionalPaths : List String
  reportSpoolInterval : Int
  titlePattern : Option String

/-- Modelled from the spec: `configUtil.getFirstMatchingPattern` (the
configUtil source is not part of `src/`) "returns the first pattern
(preserving configured order) that fits `candidateUrl`"; the
per-pattern match test (absolute or rewritten against the root URL) is
abstracted as the parameter `matchTest pattern url rootUrl`. -/
def getFirstMatchingPattern (matchTest : String → String → String → Bool)
    (patterns : List String) (url rootUrl : String) : Option String :=
  patterns.find? (fun p => matchTest p url rootUrl)

/-- `initIncludeExcludePatterns`: when at least one of the two pattern
lists is non-empty, install a fetch condition on the crawler (the `some`
case; `none` means no condition was installed).  The condition starts
from `shouldFetch = true`, conjoins "no exclude pattern fits the URL"
when exclude patterns exist, then conjoins "some include pattern fits
the URL" when include patterns exist. -/
def initIncludeExcludePatterns (matchTest : String → String → String → Bool)
    (config : SpiderConfig) : Option (String → Bool) :=
  let hasExclude := !config.excludePatterns.isEmpty
  let hasInclude := !config.includePatterns.isEmpty
  if hasExclude || hasInclude then
    some (fun url =>
      let shouldFetch := true
      let shouldFetch :=
        if hasExclude then
          shouldFetch &&
            (getFirstMatchingPattern matchTest config.excludePatterns url config.rootUrl).isNone
        else shouldFetch
      let shouldFetch :=
        if hasInclude then
          shouldFetch &&
            (getFirstMatchingPattern matchTest config.includePatterns url config.rootUrl).isSome
        else shouldFetch
      shouldFetch)
  else
    none

/-- Whether a candidate URL is fetched: the installed fetch condition is
consulted when one exists; with no fetch condition installed the engine
fetches every discovered URL (simplecrawler's default). -/
def fetchPermitted (matchTest : String → String → String → Bool)
    (config : SpiderConfig) (url : String) : Bool :=
  match initIncludeExcludePatterns matchTest config with
  | none => true
  | some cond => cond url

/-- The result of node's `URL.parse` as `initCrawler` reads it: the
`protocol`, `hostname`, `port` and `path` fields, each possibly absent
(`null`/`undefined`). -/
structure CrawlerSeedUrl where
  protocol : Option String
  hostname : Option String
  port : Option String
  path : Option String
deriving DecidableEq, Repr

/-- JS truthiness of a string-or-missing value: absent and the empty
string are falsy, every other string is truthy. -/
def truthy : Option String → Bool
  | none => false
  | some s => !(s == "")

/-- `setConfigRootUrl`: derive `config.rootUrl` from the parsed seed URL
as `protocol + "//" + hostname + (":" + port when present)`, defaulting
the protocol to `https:` (simplecrawler protocols keep the trailing
colon). -/
def setConfigRootUrl (u : CrawlerSeedUrl) : String :=
  let protocolString := if truthy u.protocol then u.protocol.getD "" else "https:"
  let portString := if truthy u.port then ":" ++ u.port.getD "" else ""
  protocolString ++ "//" ++ u.hostname.getD "" ++ portString

/-- What a successful `initCrawler` produces, as far as this embedding
tracks it: the derived root URL, the additional paths queued on the
engine by `initAdditionalPaths`, and whether `initSpool` started the
spool-reporting timer (`reportSpoolInterval > 0`). -/
structure CrawlerHandle where
  rootUrl : String
  queuedPaths : List String
  spoolStarted : Bool
deriving DecidableEq, Repr

/-- `initCrawler(myUrl, config)`: parse the seed URL and throw
`Invalid URL.` (the `Except.error` branch) when the parse result or any
of its `protocol`, `hostname`, `path` fields is falsy; only otherwise
build the engine (the `Except.ok` branch, which is where the root URL is
derived, the additional paths are queued and the spool timer may start).
`URL.parse` itself is external collaborator code, abstracted as the
`parseUrl` parameter. -/
def initCrawler (parseUrl : String → Option CrawlerSeedUrl) (myUrl : String)
    (config : SpiderConfig) : Except String CrawlerHandle :=
  match parseUrl myUrl with
  | none => Except.error "Invalid URL."
  | some u =>
      if !truthy u.protocol || !truthy u.hostname || !truthy u.path then
        Except.error "Invalid URL."
      else
        Except.ok ⟨setConfigRootUrl u, config.additionalPaths,
          decide (0 < config.reportSpoolInterval)⟩

/-- The named simplecrawler events that `crawl()` subscribes to. -/
inductive EngineEvent : Type where
  | fetchcomplete
  | discoverycomplete
  | fetchredirect
  | fetchdisallowed
  | fetch404
  | fetcherror
  | fetchdataerror
  | gziperror
  | fetchtimeout
  | fetchclienterror
  | queueerror
  | complete
deriving DecidableEq, Repr

/-- One collaborator call made by an event handler registered in
`crawl()` / `initErrorHandlers`, in the order the handler bodies make
them. -/
inductive OrchestratorAction : Type where
  | logSuccess
  | registerLink
  | logRedirect
  | logDisallowed
  | handleFetchServerError
  | handleFetchError (kind : String)
  | handleFetchClientError
  | handleQueueError
  | clearSpooledReportTimer
  | hashFindErrors
  | loggerReport
  | setExitCode
deriving DecidableEq, Repr

/-- The orchestrator-visible mutable state: whether the module-level
`spooledReportTimer` variable holds a (truthy) handle, and
`process.exitCode` (unassigned until the completion handler runs). -/
structure OrchestratorState where
  timerSet : Bool
  exitCode : Option Int
deriving DecidableEq, Repr

/-- Dispatch of one engine event through the handlers `crawl()`
registers.  The `complete` handler mirrors lines 346-356 of
`Crawler.js`: clear the spool timer when the handle is truthy, call
`hashProcessor.findErrors()`, then run `process.exitCode =
logger.report()` (the report call precedes the exit-code assignment).
`reportValue` is the value `logger.report()` returns. -/
def handleEvent (reportValue : Int) (s : OrchestratorState) :
    EngineEvent → OrchestratorState × List OrchestratorAction
  | .fetchcomplete => (s, [.logSuccess])
  | .discoverycomplete => (s, [.registerLink])
  | .fetchredirect => (s, [.logRedirect])
  | .fetchdisallowed => (s, [.logDisallowed])
  | .fetch404 => (s, [.handleFetchServerError])
  | .fetcherror => (s, [.handleFetchError "fetcherror"])
  | .fetchdataerror => (s, [.handleFetchError "fetchdataerror"])
  | .gziperror => (s, [.handleFetchError "gziperror"])
  | .fetchtimeout => (s, [.handleFetchError "fetchtimeout"])
  | .fetchclienterror => (s, [.handleFetchClientError])
  | .queueerror => (s, [.handleQueueError])
  | .complete =>
      (⟨s.timerSet, some reportValue⟩,
        (if s.timerSet then [.clearSpooledReportTimer] else []) ++
          [.hashFindErrors, .loggerReport, .setExitCode])

/-- Run a crawl's event sequence through the handlers, concatenating the
collaborator calls in order. -/
def runEvents (reportValue : Int) :
    OrchestratorState → List EngineEvent → OrchestratorState × List OrchestratorAction
  | s, [] => (s, [])
  | s, e :: es =>
      let step := handleEvent reportValue s e
      let rest := runEvents reportValue step.1 es
      (rest.1, step.2 ++ rest.2)

/-- The module-level timer machinery of `Crawler.js`: the single
`let spooledReportTimer` variable shared by every Crawler instance
loaded from the module, together with the history of `setInterval` /
`clearInterval` calls (timers identified by the id `setInterval`
returned). -/
structure ModuleTimerState where
  spooledReportTimer : Option Nat
  started : List Nat
  cancelled : List Nat
deriving DecidableEq, Repr

/-- `initSpool`: when `config.reportSpoolInterval > 0`, start a periodic
timer (`setInterval` hands back the fresh id `newId`) and store its
handle in the module-level variable, overwriting whatever handle was
there. -/
def initSpool (reportSpoolInterval : Int) (newId : Nat) (s : ModuleTimerState) :
    ModuleTimerState :=
  if 0 < reportSpoolInterval then
    ⟨some newId, s.started ++ [newId], s.cancelled⟩
  else s

/-- The timer part of the `complete` handler: when the module-level
handle is truthy, `clearInterval` it (the variable keeps its value). -/
def completeClearTimer (s : ModuleTimerState) : ModuleTimerState :=
  match s.spooledReportTimer with
  | some t => ⟨s.spooledReportTimer, s.started, s.cancelled ++ [t]⟩
  | none => s

/-- Does this effect record a `handleTitleError` call? -/
def isTitleError : Effect → Bool
  | .handleTitleError _ _ => true
  | _ => false

/-- Concrete environment for the mailto example: the engine's original
discovery hands back the three URLs of the spec's mailto-filtering
example, the shuffle is the identity permutation. -/
def mailtoEnv : CrawlEnv :=
  ⟨"site.test", none, fun _ => none, fun _ => [],
    fun _ _ => ["mailto:a@b.com", "https://x/y", "mailto:c@d.com"], id⟩

/-- Concrete queue item on the crawl's own host for the mailto example. -/
def mailtoItem : QueueItem :=
  ⟨"https://site.test/", "site.test", "text/html"⟩

/-- Evaluation of `discoverResources` on a non-HTML content type: empty
resource list and no collaborator calls at all. -/
theorem discoverResources_not_html (env : CrawlEnv) (buf : String) (qi : QueueItem)
    (h : "text/html".data.isPrefixOf qi.contentType.data = false) :
    discoverResources env buf qi = ([], []) := by
  simp [discoverResources, h]

/-- Evaluation of `discoverResources` on an HTML page whose host is not
the crawler's: empty resource list, and the only collaborator call is
`findSupportedHashes` on the full parsed document. -/
theorem discoverResources_off_host (env : CrawlEnv) (buf : String) (qi : QueueItem)
    (h1 : "text/html".data.isPrefixOf qi.contentType.data = true) (h2 : ¬qi.host = env.host) :
    discoverResources env buf qi =
      ([], [Effect.findSupportedHashes qi.url (env.parse (buf.replace "URL(s)" ""))]) := by
  simp [discoverResources, h1, h2]

/-- Evaluation of `discoverResources` on an HTML page on the crawler's
own host: the full pipeline of the source, spelled out. -/
theorem discoverResources_same_host (env : CrawlEnv) (buf : String) (qi : QueueItem)
    (h1 : "text/html".data.isPrefixOf qi.contentType.data = true) (h2 : qi.host = env.host) :
    discoverResources env buf qi =
      (env.shuffle (lodashUniq
          ((env.oldDiscoverResources (pruneForest (env.parse (buf.replace "URL(s)" ""))) qi).map
            (fun u => if mailtoTest u then none else some u))),
        Effect.findSupportedHashes qi.url (env.parse (buf.replace "URL(s)" "")) ::
          ((match env.titlePattern with
            | some _ => checkTitle qi.url env.getTitleValidationFailure
                (env.parse (buf.replace "URL(s)" ""))
            | none => []) ++
            (forestHrefs (pruneForest (env.parse (buf.replace "URL(s)" "")))).map
              (fun h => Effect.registerExpectedHash h qi) ++
            [Effect.oldDiscover (pruneForest (env.parse (buf.replace "URL(s)" ""))) qi])) := by
  simp [discoverResources, h1, h2]

/-- Membership in `lodashUniqAux`: an element is kept iff it occurs in
the remaining input and was not already seen. -/
theorem mem_lodashUniqAux {α : Type} [DecidableEq α] (l : List α) :
    ∀ (seen : List α) (x : α), x ∈ lodashUniqAux seen l ↔ (x ∈ l ∧ x ∉ seen) := by
  induction l with
  | nil => intro seen x; simp [lodashUniqAux]
  | cons a as ih =>
      intro seen x
      by_cases ha : a ∈ seen
      · rw [lodashUniqAux, if_pos ha, ih]
        by_cases hx : x = a
        · subst hx; simp [ha]
        · simp [hx]
      · rw [lodashUniqAux, if_neg ha]
        simp only [List.mem_cons, ih, List.mem_cons]
        by_cases hx : x = a
        · subst hx; simp [ha]
        · simp [hx]

/-- Membership in `lodashUniq`: deduplication neither adds nor removes
elements. -/
theorem mem_lodashUniq {α : Type} [DecidableEq α] (l : List α) (x : α) :
    x ∈ lodashUniq l ↔ x ∈ l := by
  rw [lodashUniq, mem_lodashUniqAux]
  simp

/-- `lodashUniqAux` produces a duplicate-free list. -/
theorem lodashUniqAux_nodup {α : Type} [DecidableEq α] (l : List α) :
    ∀ seen : List α, (lodashUniqAux seen l).Nodup := by
  induction l with
  | nil => intro seen; simp [lodashUniqAux]
  | cons a as ih =>
      intro seen
      by_cases ha : a ∈ seen
      · rw [lodashUniqAux, if_pos ha]; exact ih seen
      · rw [lodashUniqAux, if_neg ha]
        refine List.nodup_cons.mpr ⟨?_, ih (a :: seen)⟩
        intro hmem
        have h := (mem_lodashUniqAux as (a :: seen) a).mp hmem
        exact h.2 (List.mem_cons_self a seen)

/-- `lodashUniq` produces a duplicate-free list. -/
theorem lodashUniq_nodup {α : Type} [DecidableEq α] (l : List α) :
    (lodashUniq l).Nodup :=
  lodashUniqAux_nodup l []

/-- Declared-id extraction distributes over forest concatenation. -/
theorem forestDeclaredIds_append (l1 l2 : List HtmlNode) :
    forestDeclaredIds (l1 ++ l2) = forestDeclaredIds l1 ++ forestDeclaredIds l2 := by
  induction l1 with
  | nil => simp [forestDeclaredIds]
  | cons n ns ih => simp [forestDeclaredIds, ih]

/-- Subtree removal distributes over forest concatenation. -/
theorem pruneForest_append (l1 l2 : List HtmlNode) :
    pruneForest (l1 ++ l2) = pruneForest l1 ++ pruneForest l2 := by
  induction l1 with
  | nil => simp [pruneForest]
  | cons n ns ih =>
      cases h : pruneNode n with
      | none => simp [pruneForest, h, ih]
      | some m => simp [pruneForest, h, ih]

/-- Href extraction distributes over forest concatenation. -/
theorem forestHrefs_append (l1 l2 : List HtmlNode) :
    forestHrefs (l1 ++ l2) = forestHrefs l1 ++ forestHrefs l2 := by
  induction l1 with
  | nil => simp [forestHrefs]
  | cons n ns ih => simp [forestHrefs, ih]

/-- `registerExpectedHash` effects are never title errors. -/
theorem filter_isTitleError_registerHash (l : List String) (qi : QueueItem) :
    (l.map (fun h => Effect.registerExpectedHash h qi)).filter isTitleError = [] := by
  induction l with
  | nil => rfl
  | cons a as ih => simp [List.filter_cons, isTitleError, ih]

/-- Among one event's handler calls, `findErrors()` appears exactly on
the `complete` event. -/
theorem handleEvent_count_findErrors (r : Int) (s : OrchestratorState) (e : EngineEvent) :
    (handleEvent r s e).2.count OrchestratorAction.hashFindErrors =
      if e = EngineEvent.complete then 1 else 0 := by
  cases e <;> cases hts : s.timerSet <;>
    simp [handleEvent, hts, List.count_append, List.count_cons, List.count_nil]

/-- Handlers of events other than `complete` leave the orchestrator
state unchanged; `complete` assigns the exit code. -/
theorem handleEvent_state (r : Int) (s : OrchestratorState) (e : EngineEvent) :
    (handleEvent r s e).1 =
      if e = EngineEvent.complete then ⟨s.timerSet, some r⟩ else s := by
  cases e <;> simp [handleEvent]

/-- Across a whole event sequence, `findErrors()` is called once per
`complete` event the engine emits. -/
theorem runEvents_count_findErrors (r : Int) (events : List EngineEvent) :
    ∀ s : OrchestratorState,
      (runEvents r s events).2.count OrchestratorAction.hashFindErrors =
        events.count EngineEvent.complete := by
  induction events with
  | nil => intro s; simp [runEvents]
  | cons e es ih =>
      intro s
      rw [runEvents]
      simp only [List.count_append, List.count_cons]
      rw [handleEvent_count_findErrors, ih]
      by_cases he : e = EngineEvent.complete
      · simp [he, Nat.add_comm]
      · simp [he, beq_iff_eq]

/-- The final `process.exitCode`: assigned (to the report value) exactly
when a `complete` event occurred. -/
theorem runEvents_exitCode (r : Int) (events : List EngineEvent) :
    ∀ s : OrchestratorState,
      (runEvents r s events).1.exitCode =
        if EngineEvent.complete ∈ events then some r else s.exitCode := by
  induction events with
  | nil => intro s; simp [runEvents]
  | cons e es ih =>
      intro s
      rw [runEvents]
      simp only []
      rw [ih, handleEvent_state]
      by_cases he : e = EngineEvent.complete
      · subst he
        simp only [if_pos rfl, List.mem_cons, true_or, if_pos]
        by_cases hm : EngineEvent.complete ∈ es <;> simp [hm]
      · have : (EngineEvent.complete ∈ e :: es) ↔ (EngineEvent.complete ∈ es) := by
          simp [List.mem_cons]
          intro hc
          exact absurd hc.symm he
        rw [if_neg he]
        by_cases hm : EngineEvent.complete ∈ es
        · simp [hm, this]
        · simp [hm, this]

/-- C6: for every fetched document whose declared content type does not
start with `text/html`, `discoverResources` returns an empty resource
list and performs no further processing — the collaborator-call trace is
empty, so there is no declared-id registration, no expected-hash
registration, no title check and no link discovery. -/
theorem discoverResources_skips_non_html (env : CrawlEnv) (buf : String) (qi : QueueItem)
    (h : "text/html".data.isPrefixOf qi.contentType.data = false) :
    discoverResources env buf qi = ([], []) :=
  discoverResources_not_html env buf qi h

/-- Witness for C6 at a concrete `text/plain` document. -/
theorem discoverResources_skips_non_html_witness :
    discoverResources
      ⟨"site.test", none, fun _ => none, fun _ => [], fun _ _ => [], id⟩
      "" ⟨"https://site.test/a.txt", "site.test", "text/plain"⟩ = ([], []) :=
  discoverResources_skips_non_html
    ⟨"site.test", none, fun _ => none, fun _ => [], fun _ _ => [], id⟩
    "" ⟨"https://site.test/a.txt", "site.test", "text/plain"⟩ (by decide)

/-- C1: for every fetched HTML document on a host other than the
crawler's, `discoverResources` returns an empty resource list, yet
`findSupportedHashes` is still invoked on the page (its declared ids are
registered for the page's URL); and fragment references whose href
points off-domain are still registered as expected hashes, because on a
same-host page `registerExpectedHash` is invoked for every `a[href]` of
the pruned document regardless of which host the href names. -/
theorem discoverResources_cross_domain (env : CrawlEnv) (buf : String) (qi : QueueItem)
    (h1 : "text/html".data.isPrefixOf qi.contentType.data = true) :
    (¬qi.host = env.host →
      (discoverResources env buf qi).1 = [] ∧
      Effect.findSupportedHashes qi.url (env.parse (buf.replace "URL(s)" "")) ∈
        (discoverResources env buf qi).2) ∧
    (∀ qi2 : QueueItem, "text/html".data.isPrefixOf qi2.contentType.data = true →
      qi2.host = env.host →
      ∀ href ∈ forestHrefs (pruneForest (env.parse (buf.replace "URL(s)" ""))),
        Effect.registerExpectedHash href qi2 ∈ (discoverResources env buf qi2).2) := by
  constructor
  · intro hoff
    rw [discoverResources_off_host env buf qi h1 hoff]
    exact ⟨rfl, List.mem_singleton.mpr rfl⟩
  · intro qi2 h2 hsame href hmem
    rw [discoverResources_same_host env buf qi2 h2 hsame]
    refine List.mem_cons_of_mem _ (List.mem_append_left _ (List.mem_append_right _ ?_))
    exact List.mem_map.mpr ⟨href, hmem, rfl⟩

/-- Witness for C1: a page on `external.example` fetched during a crawl
of `site.test` yields no resources but its ids are still collected, and
a same-host page's off-domain href is registered as an expected hash. -/
theorem discoverResources_cross_domain_witness :
    (discoverResources
        ⟨"site.test", none, fun _ => none,
          fun _ => [HtmlNode.elem "a" [("href", "https://external.example/page#frag")] []],
          fun _ _ => [], id⟩
        "" ⟨"https://external.example/page", "external.example", "text/html"⟩).1 = [] ∧
    Effect.findSupportedHashes "https://external.example/page"
        [HtmlNode.elem "a" [("href", "https://external.example/page#frag")] []] ∈
      (discoverResources
        ⟨"site.test", none, fun _ => none,
          fun _ => [HtmlNode.elem "a" [("href", "https://external.example/page#frag")] []],
          fun _ _ => [], id⟩
        "" ⟨"https://external.example/page", "external.example", "text/html"⟩).2 ∧
    Effect.registerExpectedHash "https://external.example/page#frag"
        ⟨"https://site.test/", "site.test", "text/html"⟩ ∈
      (discoverResources
        ⟨"site.test", none, fun _ => none,
          fun _ => [HtmlNode.elem "a" [("href", "https://external.example/page#frag")] []],
          fun _ _ => [], id⟩
        "" ⟨"https://site.test/", "site.test", "text/html"⟩).2 := by
  have h := discoverResources_cross_domain
    ⟨"site.test", none, fun _ => none,
      fun _ => [HtmlNode.elem "a" [("href", "https://external.example/page#frag")] []],
      fun _ _ => [], id⟩
    "" ⟨"https://external.example/page", "external.example", "text/html"⟩ (by decide)
  have hoff := h.1 (by decide)
  refine ⟨hoff.1, hoff.2, ?_⟩
  refine h.2 ⟨"https://site.test/", "site.test", "text/html"⟩ (by decide) rfl
    "https://external.example/page#frag" ?_
  simp [pruneForest, pruneNode, isPrunedTag, forestHrefs, nodeHrefs, attrGet]

/-- C2 (counterexample to the claim, exhibiting the code bug): on the
spec's own mailto example, the code maps each mailto URL to `null`
(`_.map` returning `null`) but never removes the nulls, so with the
engine's discovery returning `["mailto:a@b.com", "https://x/y",
"mailto:c@d.com"]` the returned list is `[null, "https://x/y"]` — the
mailto entries are not dropped, a `null` element remains, contradicting
both the claim and the source comment "Process URLs to remove
mailto's." -/
theorem discoverResources_mailto_nulls :
    (discoverResources mailtoEnv "" mailtoItem).1 = [none, some "https://x/y"] ∧
    none ∈ (discoverResources mailtoEnv "" mailtoItem).1 := by
  constructor
  · decide
  · decide

/-- C4: for a fixed input buffer and a same-host HTML queue item, the
returned resource list has no duplicate entries, and two invocations
differing only in the behaviour of the engine-supplied shuffle (any two
permutation functions, as lodash `_.shuffle` is) return permutations of
one another — the same set of URLs, in possibly different order. -/
theorem discoverResources_set_deterministic
    (host : String) (titlePattern : Option String)
    (gtvf : List HtmlNode → Option TitleValidationFailure)
    (parse : String → List HtmlNode)
    (oldD : List HtmlNode → QueueItem → List String)
    (sh1 sh2 : List (Option String) → List (Option String))
    (hp1 : ∀ l, (sh1 l).Perm l) (hp2 : ∀ l, (sh2 l).Perm l)
    (buf : String) (qi : QueueItem)
    (h1 : "text/html".data.isPrefixOf qi.contentType.data = true)
    (h2 : qi.host = host) :
    ((discoverResources ⟨host, titlePattern, gtvf, parse, oldD, sh1⟩ buf qi).1).Nodup ∧
    ((discoverResources ⟨host, titlePattern, gtvf, parse, oldD, sh1⟩ buf qi).1).Perm
      ((discoverResources ⟨host, titlePattern, gtvf, parse, oldD, sh2⟩ buf qi).1) ∧
    (∀ x, x ∈ (discoverResources ⟨host, titlePattern, gtvf, parse, oldD, sh1⟩ buf qi).1 ↔
      x ∈ (discoverResources ⟨host, titlePattern, gtvf, parse, oldD, sh2⟩ buf qi).1) := by
  have e1 := discoverResources_same_host ⟨host, titlePattern, gtvf, parse, oldD, sh1⟩ buf qi h1 h2
  have e2 := discoverResources_same_host ⟨host, titlePattern, gtvf, parse, oldD, sh2⟩ buf qi h1 h2
  rw [e1, e2]
  dsimp only
  refine ⟨?_, ?_, ?_⟩
  · exact (hp1 _).nodup_iff.mpr (lodashUniq_nodup _)
  · exact (hp1 _).trans (hp2 _).symm
  · intro x
    exact (hp1 _).mem_iff.trans (hp2 _).mem_iff.symm

/-- Witness for C4 with the identity and reversal as the two shuffles
and a discovery list containing a duplicate. -/
theorem discoverResources_set_deterministic_witness :
    ((discoverResources
        ⟨"site.test", none, fun _ => none, fun _ => [],
          fun _ _ => ["https://a/", "https://b/", "https://a/"], id⟩
        "" ⟨"https://site.test/", "site.test", "text/html"⟩).1).Nodup ∧
    ((discoverResources
        ⟨"site.test", none, fun _ => none, fun _ => [],
          fun _ _ => ["https://a/", "https://b/", "https://a/"], id⟩
        "" ⟨"https://site.test/", "site.test", "text/html"⟩).1).Perm
      ((discoverResources
        ⟨"site.test", none, fun _ => none, fun _ => [],
          fun _ _ => ["https://a/", "https://b/", "https://a/"], List.reverse⟩
        "" ⟨"https://site.test/", "site.test", "text/html"⟩).1) ∧
    (some "https://a/" ∈ (discoverResources
        ⟨"site.test", none, fun _ => none, fun _ => [],
          fun _ _ => ["https://a/", "https://b/", "https://a/"], id⟩
        "" ⟨"https://site.test/", "site.test", "text/html"⟩).1 ↔
      some "https://a/" ∈ (discoverResources
        ⟨"site.test", none, fun _ => none, fun _ => [],
          fun _ _ => ["https://a/", "https://b/", "https://a/"], List.reverse⟩
        "" ⟨"https://site.test/", "site.test", "text/html"⟩).1) := by
  have h := discoverResources_set_deterministic "site.test" none (fun _ => none) (fun _ => [])
    (fun _ _ => ["https://a/", "https://b/", "https://a/"]) id List.reverse
    (fun l => List.Perm.refl l) (fun l => l.reverse_perm)
    "" ⟨"https://site.test/", "site.test", "text/html"⟩ (by decide) rfl
  exact ⟨h.1, h.2.1, h.2.2 (some "https://a/")⟩

/-- A `registerExpectedHash` effect never comes from `checkTitle`. -/
theorem register_not_mem_checkTitle (href u : String) (qi : QueueItem)
    (g : List HtmlNode → Option TitleValidationFailure) (d : List HtmlNode) :
    Effect.registerExpectedHash href qi ∉ checkTitle u g d := by
  unfold checkTitle
  cases g d <;> simp

/-- On a same-host HTML page, the title-error part of the trace is
exactly what `checkTitle` produces when a pattern is configured, and
empty otherwise. -/
theorem titleFilter_same_host (env : CrawlEnv) (buf : String) (qi : QueueItem)
    (h1 : "text/html".data.isPrefixOf qi.contentType.data = true) (h2 : qi.host = env.host) :
    ((discoverResources env buf qi).2.filter isTitleError) =
      (match env.titlePattern with
       | some _ => checkTitle qi.url env.getTitleValidationFailure
           (env.parse (buf.replace "URL(s)" ""))
       | none => []) := by
  rw [discoverResources_same_host env buf qi h1 h2]
  simp only [List.filter_cons, List.filter_append, isTitleError,
    filter_isTitleError_registerHash]
  cases htp : env.titlePattern with
  | none => simp [isTitleError]
  | some p =>
      cases hf : env.getTitleValidationFailure (env.parse (buf.replace "URL(s)" "")) with
      | none => simp [checkTitle, hf, isTitleError]
      | some f => simp [checkTitle, hf, isTitleError]

/-- C8: on a same-host HTML page with a configured title pattern, a
mismatch reported by the title validator is recorded as exactly one
title error carrying both the pattern and the actual title text (in the
message `pattern: ... failed on title: ...`); and no title error is
recorded when no pattern is configured or when the page is off-host. -/
theorem discoverResources_title_check (env : CrawlEnv) (buf : String) (qi : QueueItem)
    (h1 : "text/html".data.isPrefixOf qi.contentType.data = true) :
    (∀ p f, qi.host = env.host → env.titlePattern = some p →
      env.getTitleValidationFailure (env.parse (buf.replace "URL(s)" "")) = some f →
      ((discoverResources env buf qi).2.filter isTitleError) =
        [Effect.handleTitleError qi.url
          ("pattern: " ++ f.titlePattern ++ " failed on title: " ++ f.titleText)]) ∧
    (env.titlePattern = none →
      ((discoverResources env buf qi).2.filter isTitleError) = []) ∧
    (¬qi.host = env.host →
      ((discoverResources env buf qi).2.filter isTitleError) = []) := by
  refine ⟨?_, ?_, ?_⟩
  · intro p f hsame hp hf
    rw [titleFilter_same_host env buf qi h1 hsame, hp]
    simp [checkTitle, hf]
  · intro hp
    by_cases hsame : qi.host = env.host
    · rw [titleFilter_same_host env buf qi h1 hsame, hp]
    · rw [discoverResources_off_host env buf qi h1 hsame]
      simp [isTitleError]
  · intro hoff
    rw [discoverResources_off_host env buf qi h1 hoff]
    simp [isTitleError]

/-- Witness for C8: a validator reporting a mismatch of pattern `^Home`
against title `Welcome` yields exactly the one expected title error. -/
theorem discoverResources_title_check_witness :
    ((discoverResources
        ⟨"site.test", some "^Home", fun _ => some ⟨"^Home", "Welcome"⟩, fun _ => [],
          fun _ _ => [], id⟩
        "" ⟨"https://site.test/", "site.test", "text/html"⟩).2.filter isTitleError) =
      [Effect.handleTitleError "https://site.test/"
        ("pattern: " ++ "^Home" ++ " failed on title: " ++ "Welcome")] := by
  have h := discoverResources_title_check
    ⟨"site.test", some "^Home", fun _ => some ⟨"^Home", "Welcome"⟩, fun _ => [],
      fun _ _ => [], id⟩
    "" ⟨"https://site.test/", "site.test", "text/html"⟩ (by decide)
  exact h.1 "^Home" ⟨"^Home", "Welcome"⟩ rfl rfl rfl

/-- C9: within one same-host invocation, `findSupportedHashes` receives
the full parsed document (before `pre`/`code`/`svg` removal), while
`registerExpectedHash` is invoked exactly for the `a[href]` values of
the pruned document and the engine's default discovery runs on the
pruned document.  A `pre`/`code`/`svg` element is removed wholesale by
pruning, so a subtree of such an element still contributes its declared
ids to the document handed to `findSupportedHashes`, but contributes no
hrefs to the pruned document's registration and discovery. -/
theorem discoverResources_prune_order (env : CrawlEnv) (buf : String) (qi : QueueItem)
    (h1 : "text/html".data.isPrefixOf qi.contentType.data = true) (h2 : qi.host = env.host) :
    (Effect.findSupportedHashes qi.url (env.parse (buf.replace "URL(s)" "")) ∈
      (discoverResources env buf qi).2) ∧
    (∀ href, Effect.registerExpectedHash href qi ∈ (discoverResources env buf qi).2 ↔
      href ∈ forestHrefs (pruneForest (env.parse (buf.replace "URL(s)" "")))) ∧
    (Effect.oldDiscover (pruneForest (env.parse (buf.replace "URL(s)" ""))) qi ∈
      (discoverResources env buf qi).2) ∧
    (∀ tag attrs children, isPrunedTag tag = true →
      pruneNode (HtmlNode.elem tag attrs children) = none) ∧
    (∀ pfx sfx tag attrs children, isPrunedTag tag = true →
      forestDeclaredIds (pfx ++ HtmlNode.elem tag attrs children :: sfx) =
        forestDeclaredIds pfx ++ nodeDeclaredIds (HtmlNode.elem tag attrs children) ++
          forestDeclaredIds sfx ∧
      forestHrefs (pruneForest (pfx ++ HtmlNode.elem tag attrs children :: sfx)) =
        forestHrefs (pruneForest pfx) ++ forestHrefs (pruneForest sfx)) := by
  rw [discoverResources_same_host env buf qi h1 h2]
  refine ⟨List.mem_cons_self _ _, ?_, ?_, ?_, ?_⟩
  · intro href
    constructor
    · intro hmem
      rcases List.mem_cons.mp hmem with h | h
      · simp at h
      · rcases List.mem_append.mp h with h3 | h3
        · rcases List.mem_append.mp h3 with h4 | h4
          · exfalso
            cases htp : env.titlePattern with
            | none => rw [htp] at h4; simp at h4
            | some p =>
                rw [htp] at h4
                exact register_not_mem_checkTitle href qi.url qi
                  env.getTitleValidationFailure _ h4
          · rcases List.mem_map.mp h4 with ⟨a, ha, hae⟩
            cases hae
            exact ha
        · simp at h3
    · intro hmem
      refine List.mem_cons_of_mem _ (List.mem_append_left _ (List.mem_append_right _ ?_))
      exact List.mem_map.mpr ⟨href, hmem, rfl⟩
  · exact List.mem_cons_of_mem _ (List.mem_append_right _ (List.mem_singleton.mpr rfl))
  · intro tag attrs children ht
    simp [pruneNode, ht]
  · intro pfx sfx tag attrs children ht
    constructor
    · rw [forestDeclaredIds_append]
      simp [forestDeclaredIds, List.append_assoc]
    · rw [pruneForest_append]
      rw [forestHrefs_append]
      simp [pruneForest, pruneNode, ht]

/-- Witness for C9: a document with an id-carrying anchor and an href
inside a `pre` subtree, next to a plain anchor — the full document
(including the `pre` subtree) goes to `findSupportedHashes`, the href
inside `pre` is not registered, the plain anchor's href is. -/
theorem discoverResources_prune_order_witness :
    (Effect.findSupportedHashes "https://site.test/"
        [HtmlNode.elem "pre" []
            [HtmlNode.elem "a" [("href", "https://x/#inpre"), ("id", "codeid")] []],
          HtmlNode.elem "a" [("href", "https://y/#real")] []] ∈
      (discoverResources
        ⟨"site.test", none, fun _ => none,
          fun _ => [HtmlNode.elem "pre" []
              [HtmlNode.elem "a" [("href", "https://x/#inpre"), ("id", "codeid")] []],
            HtmlNode.elem "a" [("href", "https://y/#real")] []],
          fun _ _ => [], id⟩
        "" ⟨"https://site.test/", "site.test", "text/html"⟩).2) ∧
    Effect.registerExpectedHash "https://x/#inpre"
        ⟨"https://site.test/", "site.test", "text/html"⟩ ∉
      (discoverResources
        ⟨"site.test", none, fun _ => none,
          fun _ => [HtmlNode.elem "pre" []
              [HtmlNode.elem "a" [("href", "https://x/#inpre"), ("id", "codeid")] []],
            HtmlNode.elem "a" [("href", "https://y/#real")] []],
          fun _ _ => [], id⟩
        "" ⟨"https://site.test/", "site.test", "text/html"⟩).2 ∧
    Effect.registerExpectedHash "https://y/#real"
        ⟨"https://site.test/", "site.test", "text/html"⟩ ∈
      (discoverResources
        ⟨"site.test", none, fun _ => none,
          fun _ => [HtmlNode.elem "pre" []
              [HtmlNode.elem "a" [("href", "https://x/#inpre"), ("id", "codeid")] []],
            HtmlNode.elem "a" [("href", "https://y/#real")] []],
          fun _ _ => [], id⟩
        "" ⟨"https://site.test/", "site.test", "text/html"⟩).2 := by
  have h := discoverResources_prune_order
    ⟨"site.test", none, fun _ => none,
      fun _ => [HtmlNode.elem "pre" []
          [HtmlNode.elem "a" [("href", "https://x/#inpre"), ("id", "codeid")] []],
        HtmlNode.elem "a" [("href", "https://y/#real")] []],
      fun _ _ => [], id⟩
    "" ⟨"https://site.test/", "site.test", "text/html"⟩ (by decide) rfl
  refine ⟨h.1, ?_, ?_⟩
  · intro hmem
    have hr := (h.2.1 "https://x/#inpre").mp hmem
    simp [pruneForest, pruneNode, isPrunedTag, forestHrefs, nodeHrefs, attrGet] at hr
  · refine (h.2.1 "https://y/#real").mpr ?_
    simp [pruneForest, pruneNode, isPrunedTag, forestHrefs, nodeHrefs, attrGet]

/-- C5: a fetch condition is installed iff some pattern list is
non-empty; the installed condition permits fetching a URL iff (the
exclude list is empty or no exclude pattern matches) and (the include
list is empty or some include pattern matches); with both lists empty no
condition is installed and every URL is fetched. -/
theorem initIncludeExcludePatterns_fetch_condition
    (matchTest : String → String → String → Bool) (config : SpiderConfig) :
    (config.excludePatterns = [] → config.includePatterns = [] →
      initIncludeExcludePatterns matchTest config = none) ∧
    (∀ cond, initIncludeExcludePatterns matchTest config = some cond →
      ∀ url, cond url = true ↔
        ((config.excludePatterns = [] ∨
          getFirstMatchingPattern matchTest config.excludePatterns url config.rootUrl = none) ∧
         (config.includePatterns = [] ∨
          (getFirstMatchingPattern matchTest config.includePatterns url config.rootUrl).isSome
            = true))) ∧
    (∀ url, fetchPermitted matchTest config url = true ↔
        ((config.excludePatterns = [] ∨
          getFirstMatchingPattern matchTest config.excludePatterns url config.rootUrl = none) ∧
         (config.includePatterns = [] ∨
          (getFirstMatchingPattern matchTest config.includePatterns url config.rootUrl).isSome
            = true))) := by
  cases hE : config.excludePatterns with
  | nil =>
      cases hI : config.includePatterns with
      | nil =>
          refine ⟨fun _ _ => ?_, fun cond hcond url => ?_, fun url => ?_⟩
          · simp [initIncludeExcludePatterns, hE, hI]
          · simp [initIncludeExcludePatterns, hE, hI] at hcond
          · simp [fetchPermitted, initIncludeExcludePatterns, hE, hI]
      | cons i0 irest =>
          refine ⟨fun _ hI2 => ?_, fun cond hcond url => ?_, fun url => ?_⟩
          · simp at hI2
          · simp only [initIncludeExcludePatterns, hE, hI, List.isEmpty_nil,
              List.isEmpty_cons, Bool.not_true, Bool.not_false, Bool.false_or,
              if_true, Option.some.injEq] at hcond
            subst hcond
            simp [hE, hI]
          · simp [fetchPermitted, initIncludeExcludePatterns, hE, hI]
  | cons e0 erest =>
      cases hI : config.includePatterns with
      | nil =>
          refine ⟨fun hE2 _ => ?_, fun cond hcond url => ?_, fun url => ?_⟩
          · simp at hE2
          · simp only [initIncludeExcludePatterns, hE, hI, List.isEmpty_nil,
              List.isEmpty_cons, Bool.not_true, Bool.not_false, Bool.or_false,
              if_true, Option.some.injEq] at hcond
            subst hcond
            simp [hE, hI, Option.isNone_iff_eq_none]
          · simp [fetchPermitted, initIncludeExcludePatterns, hE, hI,
              Option.isNone_iff_eq_none]
      | cons i0 irest =>
          refine ⟨fun hE2 _ => ?_, fun cond hcond url => ?_, fun url => ?_⟩
          · simp at hE2
          · simp only [initIncludeExcludePatterns, hE, hI, List.isEmpty_cons,
              Bool.not_false, Bool.or_self, if_true, Option.some.injEq] at hcond
            subst hcond
            simp [hE, hI, Option.isNone_iff_eq_none, Bool.and_eq_true]
          · simp [fetchPermitted, initIncludeExcludePatterns, hE, hI,
              Option.isNone_iff_eq_none, Bool.and_eq_true]

/-- Witness for C5 on the spec's examples: with the exclude pattern
`/private/*`, the candidate `/private/secret` is never fetched; adding
the include pattern `/public/*` makes `/other` unfetched even though it
matches no exclude pattern; with only the exclude pattern, `/other` is
fetched.  The pattern test strips the trailing glob star and tests for a
prefix. -/
theorem initIncludeExcludePatterns_fetch_condition_witness :
    fetchPermitted (fun p u _ => p.data.dropLast.isPrefixOf u.data)
      ⟨["/private/*"], [], "https://site.test", [], 0, none⟩ "/private/secret" = false ∧
    fetchPermitted (fun p u _ => p.data.dropLast.isPrefixOf u.data)
      ⟨["/private/*"], ["/public/*"], "https://site.test", [], 0, none⟩ "/other" = false ∧
    fetchPermitted (fun p u _ => p.data.dropLast.isPrefixOf u.data)
      ⟨["/private/*"], [], "https://site.test", [], 0, none⟩ "/other" = true := by
  refine ⟨?_, ?_, ?_⟩
  · cases hb : fetchPermitted (fun p u _ => p.data.dropLast.isPrefixOf u.data)
        ⟨["/private/*"], [], "https://site.test", [], 0, none⟩ "/private/secret" with
    | false => rfl
    | true =>
        exact absurd (((initIncludeExcludePatterns_fetch_condition
          (fun p u _ => p.data.dropLast.isPrefixOf u.data)
          ⟨["/private/*"], [], "https://site.test", [], 0, none⟩).2.2
            "/private/secret").mp hb) (by decide)
  · cases hb : fetchPermitted (fun p u _ => p.data.dropLast.isPrefixOf u.data)
        ⟨["/private/*"], ["/public/*"], "https://site.test", [], 0, none⟩ "/other" with
    | false => rfl
    | true =>
        exact absurd (((initIncludeExcludePatterns_fetch_condition
          (fun p u _ => p.data.dropLast.isPrefixOf u.data)
          ⟨["/private/*"], ["/public/*"], "https://site.test", [], 0, none⟩).2.2
            "/other").mp hb) (by decide)
  · exact ((initIncludeExcludePatterns_fetch_condition
      (fun p u _ => p.data.dropLast.isPrefixOf u.data)
      ⟨["/private/*"], [], "https://site.test", [], 0, none⟩).2.2 "/other").mpr (by decide)

/-- C7: when the parsed seed URL is missing (falsy) or lacks a truthy
protocol, hostname or path, `initCrawler` throws `Invalid URL.` before
any engine construction (the error branch); when all three are present,
initialization proceeds to a built crawler handle without that error. -/
theorem initCrawler_seed_validation (parseUrl : String → Option CrawlerSeedUrl)
    (myUrl : String) (config : SpiderConfig) :
    (parseUrl myUrl = none →
      initCrawler parseUrl myUrl config = Except.error "Invalid URL.") ∧
    (∀ u, parseUrl myUrl = some u →
      ((truthy u.protocol = false ∨ truthy u.hostname = false ∨ truthy u.path = false) →
        initCrawler parseUrl myUrl config = Except.error "Invalid URL.") ∧
      (truthy u.protocol = true → truthy u.hostname = true → truthy u.path = true →
        ∃ handle, initCrawler parseUrl myUrl config = Except.ok handle)) := by
  constructor
  · intro h
    simp [initCrawler, h]
  · intro u hu
    constructor
    · intro hbad
      rcases hbad with h | h | h <;> simp [initCrawler, hu, h]
    · intro hp hh hpa
      refine ⟨⟨setConfigRootUrl u, config.additionalPaths,
        decide (0 < config.reportSpoolInterval)⟩, ?_⟩
      simp [initCrawler, hu, hp, hh, hpa]

/-- Witness for C7: a seed with protocol, hostname and path initializes
without error; a seed lacking a protocol aborts with `Invalid URL.`. -/
theorem initCrawler_seed_validation_witness :
    (∃ handle, initCrawler
        (fun _ => some ⟨some "https:", some "site.test", none, some "/"⟩)
        "https://site.test/" ⟨[], [], "", [], 0, none⟩ = Except.ok handle) ∧
    initCrawler (fun _ => some ⟨none, some "site.test", none, some "/"⟩)
        "site.test/" ⟨[], [], "", [], 0, none⟩ = Except.error "Invalid URL." := by
  constructor
  · exact ((initCrawler_seed_validation
      (fun _ => some ⟨some "https:", some "site.test", none, some "/"⟩)
      "https://site.test/" ⟨[], [], "", [], 0, none⟩).2
        ⟨some "https:", some "site.test", none, some "/"⟩ rfl).2 (by decide) (by decide)
        (by decide)
  · exact ((initCrawler_seed_validation
      (fun _ => some ⟨none, some "site.test", none, some "/"⟩)
      "site.test/" ⟨[], [], "", [], 0, none⟩).2
        ⟨none, some "site.test", none, some "/"⟩ rfl).1 (Or.inl (by decide))

/-- C3: the `complete` handler performs, in order, timer cancellation
(the spool timer being set), `findErrors()`, `report()` and the
exit-code assignment of the reported value; no other event's handler
calls `findErrors()`, so over an engine run whose event sequence emits
`complete` exactly once, `findErrors()` runs exactly once — at
completion — and the final `process.exitCode` is the report value. -/
theorem crawl_complete_sequence (r : Int) (s : OrchestratorState)
    (events : List EngineEvent)
    (hset : s.timerSet = true) (honce : events.count EngineEvent.complete = 1) :
    handleEvent r s EngineEvent.complete =
      (⟨s.timerSet, some r⟩,
        [OrchestratorAction.clearSpooledReportTimer, OrchestratorAction.hashFindErrors,
          OrchestratorAction.loggerReport, OrchestratorAction.setExitCode]) ∧
    (∀ e, e ≠ EngineEvent.complete →
      OrchestratorAction.hashFindErrors ∉ (handleEvent r s e).2) ∧
    (runEvents r s events).2.count OrchestratorAction.hashFindErrors = 1 ∧
    (runEvents r s events).1.exitCode = some r := by
  refine ⟨?_, ?_, ?_, ?_⟩
  · simp [handleEvent, hset]
  · intro e he
    cases e <;> first
      | exact absurd rfl he
      | simp [handleEvent]
  · rw [runEvents_count_findErrors]
    exact honce
  · rw [runEvents_exitCode]
    have hmem : EngineEvent.complete ∈ events := by
      have hpos : 0 < events.count EngineEvent.complete := by omega
      exact List.count_pos_iff.mp hpos
    simp [hmem]

/-- Witness for C3 on a run with one fetch success and one completion. -/
theorem crawl_complete_sequence_witness :
    (runEvents 2 ⟨true, none⟩
        [EngineEvent.fetchcomplete, EngineEvent.complete]).2.count
      OrchestratorAction.hashFindErrors = 1 ∧
    (runEvents 2 ⟨true, none⟩
        [EngineEvent.fetchcomplete, EngineEvent.complete]).1.exitCode = some 2 ∧
    handleEvent 2 ⟨true, none⟩ EngineEvent.complete =
      (⟨true, some 2⟩,
        [OrchestratorAction.clearSpooledReportTimer, OrchestratorAction.hashFindErrors,
          OrchestratorAction.loggerReport, OrchestratorAction.setExitCode]) := by
  have h := crawl_complete_sequence 2 ⟨true, none⟩
    [EngineEvent.fetchcomplete, EngineEvent.complete] rfl (by decide)
  exact ⟨h.2.2.1, h.2.2.2, h.1⟩

/-- C10: the spool timer handle is one module-level variable shared by
all Crawler instances.  Starting a second run (interval > 0) before the
first completes overwrites the handle with the second timer's id; from
then on every completion cancels only the most recently started timer,
and the first run's timer id is never cancelled. -/
theorem spooledReportTimer_module_shared (i1 i2 : Int) (id1 id2 : Nat)
    (h1 : 0 < i1) (h2 : 0 < i2) (hne : id1 ≠ id2) :
    (initSpool i1 id1 ⟨none, [], []⟩).spooledReportTimer = some id1 ∧
    (initSpool i2 id2 (initSpool i1 id1 ⟨none, [], []⟩)).spooledReportTimer = some id2 ∧
    (∀ n : Nat,
      (completeClearTimer^[n]
          (initSpool i2 id2 (initSpool i1 id1 ⟨none, [], []⟩))).spooledReportTimer
        = some id2 ∧
      id1 ∉ (completeClearTimer^[n]
          (initSpool i2 id2 (initSpool i1 id1 ⟨none, [], []⟩))).cancelled) ∧
    (∀ n : Nat, 0 < n →
      id2 ∈ (completeClearTimer^[n]
          (initSpool i2 id2 (initSpool i1 id1 ⟨none, [], []⟩))).cancelled) := by
  have e1 : initSpool i1 id1 ⟨none, [], []⟩ = ⟨some id1, [id1], []⟩ := by
    simp [initSpool, h1]
  have e2 : initSpool i2 id2 (initSpool i1 id1 ⟨none, [], []⟩) =
      ⟨some id2, [id1, id2], []⟩ := by
    rw [e1]
    simp [initSpool, h2]
  have iter : ∀ n, completeClearTimer^[n] (⟨some id2, [id1, id2], []⟩ : ModuleTimerState) =
      ⟨some id2, [id1, id2], List.replicate n id2⟩ := by
    intro n
    induction n with
    | zero => simp
    | succ n ih =>
        rw [Function.iterate_succ_apply', ih, completeClearTimer]
        rw [List.replicate_succ']
  refine ⟨by rw [e1], by rw [e2], ?_, ?_⟩
  · intro n
    rw [e2, iter n]
    refine ⟨rfl, ?_⟩
    simp [List.mem_replicate, hne]
  · intro n hn
    rw [e2, iter n]
    simp [List.mem_replicate]
    omega

/-- Witness for C10: two runs with interval 1 and timer ids 0 and 1;
after three completions the second timer was cancelled, the first
never. -/
theorem spooledReportTimer_module_shared_witness :
    (initSpool 1 1 (initSpool 1 0 ⟨none, [], []⟩)).spooledReportTimer = some 1 ∧
    (completeClearTimer^[3]
        (initSpool 1 1 (initSpool 1 0 ⟨none, [], []⟩))).spooledReportTimer = some 1 ∧
    (0 : Nat) ∉ (completeClearTimer^[3]
        (initSpool 1 1 (initSpool 1 0 ⟨none, [], []⟩))).cancelled ∧
    (1 : Nat) ∈ (completeClearTimer^[3]
        (initSpool 1 1 (initSpool 1 0 ⟨none, [], []⟩))).cancelled := by
  have h := spooledReportTimer_module_shared 1 1 0 1 (by decide) (by decide) (by decide)
  exact ⟨h.2.1, (h.2.2.1 3).1, (h.2.2.1 3).2, h.2.2.2 3 (by decide)⟩
